import Mathlib

/-!
Shallow embedding of the persistence layer of GameDevScheduler
(src-tauri/src/database.rs and models.rs).

The store is SQLite accessed through rusqlite.  The embedding models the
database as four lists of rows (insertion order = rowid order).  Two
points of SQLite semantics are embedded deliberately:

* the program opens the connection with rusqlite's default flags and never
  executes the statement PRAGMA foreign_keys = ON; SQLite ships with
  foreign-key enforcement OFF by default, so the FOREIGN KEY ... ON DELETE
  CASCADE / SET NULL clauses declared in init_db are never enforced at run
  time.  Consequently every DELETE removes exactly the rows its WHERE
  clause selects, an INSERT never checks that the referenced parent row
  exists, and no reference is ever nulled out by a parent deletion.

* ORDER BY on a single column is modelled as a stable insertion sort of
  the filtered rows, which refines SQLite's (otherwise unspecified)
  ordering among equal keys.

Identifiers (UUID v4 in the source) and timestamps (Utc::now, RFC 3339
with nanosecond precision) are modelled by one strictly increasing
counter, Store.clock: each row creation consumes a fresh value for its id
and its creation timestamp.  This captures exactly the properties the
source relies on: generated identifiers are fresh and clock readings
taken by successive creations are strictly increasing.
-/

namespace GDS

/-- Row of the teams table (models.rs, struct Team). -/
structure Team where
  id : Nat
  name : String
  created_at : Nat
deriving DecidableEq

/-- Row of the members table (models.rs, struct Member). -/
structure Member where
  id : Nat
  team_id : Nat
  name : String
  role : String
  color : String
  created_at : Nat
deriving DecidableEq

/-- Row of the categories table (models.rs, struct Category).
order_index is an i32 in the source; SQLite stores INTEGER as a 64-bit
value and the computed indexes stay far from the i32 bounds, so it is
modelled as Int. -/
structure Category where
  id : Nat
  team_id : Nat
  name : String
  color : String
  order_index : Int
  created_at : Nat
deriving DecidableEq

/-- Row of the tasks table (models.rs, struct Task). -/
structure Task where
  id : Nat
  team_id : Nat
  member_id : Option Nat
  category_id : Option Nat
  title : String
  description : String
  start_date : String
  end_date : String
  status : String
  created_at : Nat
  updated_at : Nat
deriving DecidableEq

/-- Creation payload (models.rs, struct CreateTeam). -/
structure CreateTeam where
  name : String
deriving DecidableEq

/-- Creation payload (models.rs, struct CreateMember). -/
structure CreateMember where
  team_id : Nat
  name : String
  role : String
  color : String
deriving DecidableEq

/-- Creation payload (models.rs, struct CreateCategory). -/
structure CreateCategory where
  team_id : Nat
  name : String
  color : String
deriving DecidableEq

/-- Creation payload (models.rs, struct CreateTask). -/
structure CreateTask where
  team_id : Nat
  member_id : Option Nat
  category_id : Option Nat
  title : String
  description : String
  start_date : String
  end_date : String
  status : String
deriving DecidableEq

/-- Update payload (models.rs, struct UpdateTask). -/
structure UpdateTask where
  id : Nat
  member_id : Option Nat
  category_id : Option Nat
  title : String
  description : String
  start_date : String
  end_date : String
  status : String
deriving DecidableEq

/-- Update payload (models.rs, struct UpdateMember). -/
structure UpdateMember where
  id : Nat
  name : String
  role : String
  color : String
deriving DecidableEq

/-- Update payload (models.rs, struct UpdateCategory). -/
structure UpdateCategory where
  id : Nat
  name : String
  color : String
  order_index : Int
deriving DecidableEq

/-- The database state: the four tables in rowid (insertion) order, plus
the fresh-value counter standing for the UUID generator and the clock. -/
structure Store where
  teams : List Team
  members : List Member
  categories : List Category
  tasks : List Task
  clock : Nat
deriving DecidableEq

/-- ORDER BY created_at on teams. -/
def teamLe (a b : Team) : Prop := a.created_at ≤ b.created_at

/-- ORDER BY created_at on members. -/
def memberLe (a b : Member) : Prop := a.created_at ≤ b.created_at

/-- ORDER BY order_index on categories. -/
def catLe (a b : Category) : Prop := a.order_index ≤ b.order_index

/-- ORDER BY start_date on tasks (TEXT comparison, i.e. lexicographic). -/
def taskLe (a b : Task) : Prop := a.start_date ≤ b.start_date

instance : DecidableRel teamLe := fun a b => Nat.decLe _ _
instance : DecidableRel memberLe := fun a b => Nat.decLe _ _
instance : DecidableRel catLe := fun a b => Int.decLe _ _
instance : DecidableRel taskLe := fun a b => String.decidableLE _ _

instance : IsTotal Team teamLe := ⟨fun a b => Nat.le_total _ _⟩
instance : IsTrans Team teamLe := ⟨fun _ _ _ => Nat.le_trans⟩
instance : IsTotal Member memberLe := ⟨fun a b => Nat.le_total _ _⟩
instance : IsTrans Member memberLe := ⟨fun _ _ _ => Nat.le_trans⟩
instance : IsTotal Category catLe := ⟨fun a b => Int.le_total _ _⟩
instance : IsTrans Category catLe := ⟨fun _ _ _ => Int.le_trans⟩
instance : IsTotal Task taskLe := ⟨fun a b => le_total _ _⟩
instance : IsTrans Task taskLe := ⟨fun _ _ _ => le_trans⟩

/-- database.rs, create_team: INSERT INTO teams with a fresh id and
timestamp, returning the populated entity. -/
def create_team (d : CreateTeam) (s : Store) : Team × Store :=
  let t : Team := { id := s.clock, name := d.name, created_at := s.clock }
  (t, { s with teams := s.teams ++ [t], clock := s.clock + 1 })

/-- database.rs, get_teams: SELECT ... FROM teams ORDER BY created_at. -/
def get_teams (s : Store) : List Team :=
  List.insertionSort teamLe s.teams

/-- database.rs, delete_team: DELETE FROM teams WHERE id = ?1.  Foreign
keys are not enforced on this connection, so no child row is touched. -/
def delete_team (id : Nat) (s : Store) : Store :=
  { s with teams := s.teams.filter (fun t => ¬ t.id = id) }

/-- database.rs, update_team: UPDATE teams SET name = ?1 WHERE id = ?2. -/
def update_team (id : Nat) (name : String) (s : Store) : Store :=
  { s with teams := s.teams.map (fun t => if t.id = id then { t with name := name } else t) }

/-- database.rs, create_member: INSERT INTO members with a fresh id and
timestamp.  The team_id is not checked against the teams table (foreign
keys are not enforced). -/
def create_member (d : CreateMember) (s : Store) : Member × Store :=
  let m : Member := { id := s.clock, team_id := d.team_id, name := d.name,
                      role := d.role, color := d.color, created_at := s.clock }
  (m, { s with members := s.members ++ [m], clock := s.clock + 1 })

/-- database.rs, get_members: SELECT ... FROM members WHERE team_id = ?1
ORDER BY created_at. -/
def get_members (tid : Nat) (s : Store) : List Member :=
  List.insertionSort memberLe (s.members.filter (fun m => m.team_id = tid))

/-- database.rs, update_member: UPDATE members SET name, role, color
WHERE id = ?4. -/
def update_member (d : UpdateMember) (s : Store) : Store :=
  { s with members := s.members.map (fun m =>
      if m.id = d.id then { m with name := d.name, role := d.role, color := d.color } else m) }

/-- database.rs, delete_member: DELETE FROM members WHERE id = ?1.
Foreign keys are not enforced, so referencing tasks are left unchanged
(the declared ON DELETE SET NULL does not fire). -/
def delete_member (id : Nat) (s : Store) : Store :=
  { s with members := s.members.filter (fun m => ¬ m.id = id) }

/-- database.rs, create_category, order_index subquery:
SELECT COALESCE(MAX(order_index), -1) + 1 ... WHERE team_id = ?1.
This is SQL MAX over the team's rows: none on the empty set. -/
def sqlMaxOrderIndex : List Category → Option Int
  | [] => none
  | c :: cs =>
    some (match sqlMaxOrderIndex cs with
          | none => c.order_index
          | some m => max c.order_index m)

/-- database.rs, create_category: computes order_index as
COALESCE(MAX(order_index), -1) + 1 over the team's categories, then
INSERT INTO categories with a fresh id and timestamp. -/
def create_category (d : CreateCategory) (s : Store) : Category × Store :=
  let idx : Int := (sqlMaxOrderIndex (s.categories.filter (fun c => c.team_id = d.team_id))).getD (-1) + 1
  let c : Category := { id := s.clock, team_id := d.team_id, name := d.name,
                        color := d.color, order_index := idx, created_at := s.clock }
  (c, { s with categories := s.categories ++ [c], clock := s.clock + 1 })

/-- database.rs, get_categories: SELECT ... WHERE team_id = ?1 ORDER BY
order_index. -/
def get_categories (tid : Nat) (s : Store) : List Category :=
  List.insertionSort catLe (s.categories.filter (fun c => c.team_id = tid))

/-- database.rs, update_category: UPDATE categories SET name, color,
order_index WHERE id = ?4. -/
def update_category (d : UpdateCategory) (s : Store) : Store :=
  { s with categories := s.categories.map (fun c =>
      if c.id = d.id then { c with name := d.name, color := d.color, order_index := d.order_index } else c) }

/-- database.rs, delete_category: DELETE FROM categories WHERE id = ?1. -/
def delete_category (id : Nat) (s : Store) : Store :=
  { s with categories := s.categories.filter (fun c => ¬ c.id = id) }

/-- database.rs, create_task: INSERT INTO tasks with a fresh id, both
timestamps set to now, and the caller-supplied member_id/category_id
stored unchecked (foreign keys are not enforced). -/
def create_task (d : CreateTask) (s : Store) : Task × Store :=
  let k : Task := { id := s.clock, team_id := d.team_id, member_id := d.member_id,
                    category_id := d.category_id, title := d.title,
                    description := d.description, start_date := d.start_date,
                    end_date := d.end_date, status := d.status,
                    created_at := s.clock, updated_at := s.clock }
  (k, { s with tasks := s.tasks ++ [k], clock := s.clock + 1 })

/-- database.rs, get_tasks: SELECT ... WHERE team_id = ?1 ORDER BY
start_date (deliberately not created_at). -/
def get_tasks (tid : Nat) (s : Store) : List Task :=
  List.insertionSort taskLe (s.tasks.filter (fun k => k.team_id = tid))

/-- database.rs, update_task: UPDATE tasks SET member_id, category_id,
title, description, start_date, end_date, status, updated_at = now
WHERE id = ?9. -/
def update_task (d : UpdateTask) (s : Store) : Store :=
  let upd : Task → Task := fun k =>
    if k.id = d.id then
      { k with member_id := d.member_id, category_id := d.category_id,
               title := d.title, description := d.description,
               start_date := d.start_date, end_date := d.end_date,
               status := d.status, updated_at := s.clock }
    else k
  { s with tasks := s.tasks.map upd, clock := s.clock + 1 }

/-- database.rs, delete_task: DELETE FROM tasks WHERE id = ?1. -/
def delete_task (id : Nat) (s : Store) : Store :=
  { s with tasks := s.tasks.filter (fun k => ¬ k.id = id) }

/-- database.rs, init_default_categories: the ten fixed (name, color)
pairs, in source order. -/
def defaultCategories : List (String × String) :=
  [("Proposal", "#FF6B6B"),
   ("Draft", "#4ECDC4"),
   ("Wireframe", "#45B7D1"),
   ("UI Instruction", "#96CEB4"),
   ("VFX Instruction", "#FFEAA7"),
   ("Sound Instruction", "#DDA0DD"),
   ("DM/VO", "#98D8C8"),
   ("Server", "#F7DC6F"),
   ("Client", "#BB8FCE"),
   ("QA", "#85C1E9")]

/-- A loop that calls create_category once per (name, color) pair,
collecting the created rows.  This is the shared shape of the loop in
init_default_categories and of the category loop in import_data. -/
def createCategoryList (tid : Nat) : List (String × String) → Store → List Category × Store
  | [], s => ([], s)
  | p :: ps, s =>
    let r := create_category { team_id := tid, name := p.1, color := p.2 } s
    let rest := createCategoryList tid ps r.2
    (r.1 :: rest.1, rest.2)

/-- database.rs, init_default_categories: create the ten default
categories in order via create_category. -/
def init_default_categories (tid : Nat) (s : Store) : List Category × Store :=
  createCategoryList tid defaultCategories s

/-- JSON values as produced and consumed by serde_json. -/
inductive Json where
  | null
  | bool (b : Bool)
  | num (n : Int)
  | str (s : String)
  | arr (elems : List Json)
  | obj (fields : List (String × Json))

/-- Field lookup in an object's field list (serde_json map lookup; parsed
objects hold each key once). -/
def lookupField : List (String × Json) → String → Option Json
  | [], _ => none
  | f :: fs, key => if f.1 = key then some f.2 else lookupField fs key

/-- serde_json Value::get(key): some value for an object that has the
key, none otherwise. -/
def Json.getField : Json → String → Option Json
  | .obj fs, key => lookupField fs key
  | _, _ => none

/-- serde_json Value::as_array. -/
def Json.asArr : Json → Option (List Json)
  | .arr xs => some xs
  | _ => none

/-- serde_json Value::as_str. -/
def Json.asStr : Json → Option String
  | .str s => some s
  | _ => none

/-- The import's per-field extraction pattern:
value.get(key).and_then(as_str).unwrap_or(dflt). -/
def getStr (j : Json) (key dflt : String) : String :=
  ((j.getField key).bind Json.asStr).getD dflt

/-- serde serialization of a Team row (ids and timestamps appear as
strings in the document, matching the TEXT columns). -/
def Team.toJson (t : Team) : Json :=
  .obj [("id", .str (toString t.id)), ("name", .str t.name),
        ("created_at", .str (toString t.created_at))]

/-- serde serialization of a Member row. -/
def Member.toJson (m : Member) : Json :=
  .obj [("id", .str (toString m.id)), ("team_id", .str (toString m.team_id)),
        ("name", .str m.name), ("role", .str m.role), ("color", .str m.color),
        ("created_at", .str (toString m.created_at))]

/-- serde serialization of a Category row. -/
def Category.toJson (c : Category) : Json :=
  .obj [("id", .str (toString c.id)), ("team_id", .str (toString c.team_id)),
        ("name", .str c.name), ("color", .str c.color),
        ("order_index", .num c.order_index),
        ("created_at", .str (toString c.created_at))]

/-- serde serialization of an Option column (null or string). -/
def optToJson : Option Nat → Json
  | none => .null
  | some v => .str (toString v)

/-- serde serialization of a Task row. -/
def Task.toJson (k : Task) : Json :=
  .obj [("id", .str (toString k.id)), ("team_id", .str (toString k.team_id)),
        ("member_id", optToJson k.member_id), ("category_id", optToJson k.category_id),
        ("title", .str k.title), ("description", .str k.description),
        ("start_date", .str k.start_date), ("end_date", .str k.end_date),
        ("status", .str k.status), ("created_at", .str (toString k.created_at)),
        ("updated_at", .str (toString k.updated_at))]

/-- The export document shape built by export_data: top-level keys team,
members, categories, tasks, exported_at. -/
def exportDoc (tm : Team) (ms cs ks : List Json) (ex : String) : Json :=
  .obj [("team", tm.toJson), ("members", .arr ms), ("categories", .arr cs),
        ("tasks", .arr ks), ("exported_at", .str ex)]

/-- database.rs, export_data: reads the team row (error when absent, as
query_row fails on no rows), then the three scoped listings, and builds
the export document.  Read-only.  The JSON value stands for the
pretty-printed string the source returns; serde's print/parse round trip
reproduces the value. -/
def export_data (tid : Nat) (s : Store) : Except String Json :=
  match s.teams.find? (fun t => t.id = tid) with
  | none => .error "Query returned no rows"
  | some team =>
    .ok (exportDoc team
          ((get_members tid s).map Member.toJson)
          ((get_categories tid s).map Category.toJson)
          ((get_tasks tid s).map Task.toJson)
          (toString s.clock))

/-- database.rs, import_data member loop body: field extraction with the
source's defaults. -/
def memberFromJson (tid : Nat) (j : Json) : CreateMember :=
  { team_id := tid, name := getStr j "name" "", role := getStr j "role" "",
    color := getStr j "color" "#4A90D9" }

/-- database.rs, import_data member loop: create_member per element. -/
def membersPhase (tid : Nat) : List Json → Store → Store
  | [], s => s
  | j :: js, s => membersPhase tid js (create_member (memberFromJson tid j) s).2

/-- database.rs, import_data category loop body: field extraction with
the source's defaults (order_index in the document is never read). -/
def categoryPair (j : Json) : String × String :=
  (getStr j "name" "", getStr j "color" "#4A90D9")

/-- database.rs, import_data category loop: create_category per element,
which recomputes order_index from the store each time. -/
def categoriesPhase (tid : Nat) (js : List Json) (s : Store) : Store :=
  (createCategoryList tid (js.map categoryPair) s).2

/-- database.rs, import_data task loop body: field extraction with the
source's defaults; member_id and category_id are hard-coded to none. -/
def taskFromJson (tid : Nat) (j : Json) : CreateTask :=
  { team_id := tid, member_id := none, category_id := none,
    title := getStr j "title" "", description := getStr j "description" "",
    start_date := getStr j "start_date" "", end_date := getStr j "end_date" "",
    status := getStr j "status" "not_started" }

/-- database.rs, import_data task loop: create_task per element. -/
def tasksPhase (tid : Nat) : List Json → Store → Store
  | [], s => s
  | j :: js, s => tasksPhase tid js (create_task (taskFromJson tid j) s).2

/-- database.rs, import_data delete phase: the three DELETE ... WHERE
team_id = ?1 statements (tasks, then categories, then members). -/
def clearTeamData (tid : Nat) (s : Store) : Store :=
  { s with tasks := s.tasks.filter (fun k => ¬ k.team_id = tid),
           categories := s.categories.filter (fun c => ¬ c.team_id = tid),
           members := s.members.filter (fun m => ¬ m.team_id = tid) }

/-- database.rs, import_data.  The Option Json argument is the result of
serde_json::from_str on the input string: none models a string that does
not parse, in which case the function errors out before the delete
phase.  On a parsed document it first deletes the team's tasks,
categories and members (in that order), then runs the three creation
loops, each skipped when the corresponding key is missing or not an
array.  The model's creation operations are total, so the partial-failure
path of the source is never taken here. -/
def import_data (tid : Nat) (doc : Option Json) (s : Store) : Except String Unit × Store :=
  match doc with
  | none => (.error "invalid json", s)
  | some data =>
    let s₁ : Store := clearTeamData tid s
    let s₂ := match (data.getField "members").bind Json.asArr with
              | some js => membersPhase tid js s₁
              | none => s₁
    let s₃ := match (data.getField "categories").bind Json.asArr with
              | some js => categoriesPhase tid js s₂
              | none => s₂
    let s₄ := match (data.getField "tasks").bind Json.asArr with
              | some js => tasksPhase tid js s₃
              | none => s₃
    (.ok (), s₄)

/-- The rows of the four tables, i.e. the observable database state (the
clock is the model's stand-in for the ambient UUID generator and wall
clock, not a stored value). -/
def rows (s : Store) : List Team × List Member × List Category × List Task :=
  (s.teams, s.members, s.categories, s.tasks)

/-- The member row that create_member builds from payload d when the
fresh counter stands at c. -/
def mkMemRow (c : Nat) (d : CreateMember) : Member :=
  { id := c, team_id := d.team_id, name := d.name, role := d.role,
    color := d.color, created_at := c }

/-- The category row that create_category builds from payload d when the
fresh counter stands at c and the computed order_index is k. -/
def mkCatRow (c : Nat) (d : CreateCategory) (k : Int) : Category :=
  { id := c, team_id := d.team_id, name := d.name, color := d.color,
    order_index := k, created_at := c }

/-- The task row that create_task builds from payload d when the fresh
counter stands at c. -/
def mkTaskRow (c : Nat) (d : CreateTask) : Task :=
  { id := c, team_id := d.team_id, member_id := d.member_id,
    category_id := d.category_id, title := d.title, description := d.description,
    start_date := d.start_date, end_date := d.end_date, status := d.status,
    created_at := c, updated_at := c }

/-- The rows that the member-import loop of import_data inserts, given
the starting value of the fresh counter. -/
def mkMems (tid : Nat) : List Json → Nat → List Member
  | [], _ => []
  | j :: js, c => mkMemRow c (memberFromJson tid j) :: mkMems tid js (c + 1)

/-- The rows that a run of createCategoryList inserts, given the starting
fresh counter and the starting order_index. -/
def mkCats (tid : Nat) : List (String × String) → Nat → Int → List Category
  | [], _, _ => []
  | p :: ps, c, k =>
    mkCatRow c { team_id := tid, name := p.1, color := p.2 } k :: mkCats tid ps (c + 1) (k + 1)

/-- The rows that the task-import loop of import_data inserts, given the
starting value of the fresh counter. -/
def mkTasks (tid : Nat) : List Json → Nat → List Task
  | [], _ => []
  | j :: js, c => mkTaskRow c (taskFromJson tid j) :: mkTasks tid js (c + 1)

/-- export_data followed by import_data of the produced document into the
same team (the composition the export/import round-trip claims are
about); on export failure the store is left as is. -/
def roundtripStore (tid : Nat) (s : Store) : Store :=
  match export_data tid s with
  | .ok doc => (import_data tid (some doc) s).2
  | .error _ => s

/-- A store with no rows. -/
def emptyStore : Store :=
  { teams := [], members := [], categories := [], tasks := [], clock := 0 }

/-- A concrete populated store: one team (id 0) owning one member (id 1),
one category (id 2) and one task (id 3) that references the member and
the category. -/
def storeA : Store :=
  { teams := [{ id := 0, name := "Team", created_at := 0 }],
    members := [{ id := 1, team_id := 0, name := "Alice", role := "member",
                  color := "#4A90D9", created_at := 1 }],
    categories := [{ id := 2, team_id := 0, name := "Proposal", color := "#FF6B6B",
                     order_index := 0, created_at := 2 }],
    tasks := [{ id := 3, team_id := 0, member_id := some 1, category_id := some 2,
                title := "Draft doc", description := "", start_date := "2024-01-01",
                end_date := "2024-01-05", status := "not_started",
                created_at := 3, updated_at := 3 }],
    clock := 4 }

/-- A concrete store whose single category carries order_index 3 (as
update_category can produce): team 0 with one member, that category, and
one task. -/
def storeB : Store :=
  { teams := [{ id := 0, name := "Team", created_at := 0 }],
    members := [{ id := 1, team_id := 0, name := "Alice", role := "member",
                  color := "#4A90D9", created_at := 1 }],
    categories := [{ id := 2, team_id := 0, name := "Art", color := "#FF0000",
                     order_index := 3, created_at := 2 }],
    tasks := [{ id := 4, team_id := 0, member_id := some 1, category_id := none,
                title := "Draft", description := "", start_date := "2024-01-01",
                end_date := "2024-01-02", status := "not_started",
                created_at := 4, updated_at := 4 }],
    clock := 5 }

/-- A concrete UpdateTask payload with identifier 0 and empty fields. -/
def updTask0 : UpdateTask :=
  { id := 0, member_id := none, category_id := none, title := "",
    description := "", start_date := "", end_date := "", status := "" }

/-- A concrete UpdateMember payload with identifier 0. -/
def updMem0 : UpdateMember := { id := 0, name := "", role := "", color := "" }

/-- A concrete UpdateCategory payload with identifier 0. -/
def updCat0 : UpdateCategory := { id := 0, name := "", color := "", order_index := 0 }

/-- A concrete CreateMember payload referencing team 7. -/
def newMem7 : CreateMember :=
  { team_id := 7, name := "Bob", role := "member", color := "#000000" }

/-- A concrete CreateCategory payload referencing team 7. -/
def newCat7 : CreateCategory := { team_id := 7, name := "Cat", color := "#FFFFFF" }

/-- A concrete CreateTask payload referencing team 7. -/
def newTask7 : CreateTask :=
  { team_id := 7, member_id := none, category_id := none, title := "T",
    description := "", start_date := "2024-01-01", end_date := "2024-01-02",
    status := "not_started" }

/-- Claim C5: for every team id t, get_tasks(t) returns exactly the tasks
with team_id = t sorted ascending by start_date, get_categories(t)
returns exactly the categories with team_id = t sorted ascending by
order_index, and get_members(t) returns exactly the members with
team_id = t sorted ascending by created_at. -/
theorem list_queries_filter_and_sort (s : Store) (tid : Nat) :
    List.Perm (get_tasks tid s) (s.tasks.filter (fun k => k.team_id = tid))
    ∧ List.Sorted taskLe (get_tasks tid s)
    ∧ List.Perm (get_categories tid s) (s.categories.filter (fun c => c.team_id = tid))
    ∧ List.Sorted catLe (get_categories tid s)
    ∧ List.Perm (get_members tid s) (s.members.filter (fun m => m.team_id = tid))
    ∧ List.Sorted memberLe (get_members tid s) :=
  ⟨List.perm_insertionSort taskLe _, List.sorted_insertionSort taskLe _,
   List.perm_insertionSort catLe _, List.sorted_insertionSort catLe _,
   List.perm_insertionSort memberLe _, List.sorted_insertionSort memberLe _⟩

/-- Claim C7: when the input string does not parse as JSON (modelled by
the parse result none), import_data returns an error and the store is
completely unchanged: the parse happens before the delete phase, so
nothing belonging to the team is deleted. -/
theorem import_unparseable_errors_before_delete (tid : Nat) (s : Store) :
    import_data tid none s = (Except.error "invalid json", s) := rfl

/-- Claim C6: updating a non-existent Task identifier leaves every table
row unchanged (and raises no error); likewise for update_member,
update_category, update_team, and all four delete operations given an
identifier that matches no row. -/
theorem missing_id_operations_are_noops (s : Store)
    (dt : UpdateTask) (dm : UpdateMember) (dc : UpdateCategory)
    (tuId : Nat) (tuName : String) (kid mid cid tid : Nat)
    (hut : ∀ k ∈ s.tasks, k.id ≠ dt.id)
    (hum : ∀ m ∈ s.members, m.id ≠ dm.id)
    (huc : ∀ c ∈ s.categories, c.id ≠ dc.id)
    (hue : ∀ t ∈ s.teams, t.id ≠ tuId)
    (hdt : ∀ k ∈ s.tasks, k.id ≠ kid)
    (hdm : ∀ m ∈ s.members, m.id ≠ mid)
    (hdc : ∀ c ∈ s.categories, c.id ≠ cid)
    (hde : ∀ t ∈ s.teams, t.id ≠ tid) :
    rows (update_task dt s) = rows s
    ∧ rows (update_member dm s) = rows s
    ∧ rows (update_category dc s) = rows s
    ∧ rows (update_team tuId tuName s) = rows s
    ∧ rows (delete_task kid s) = rows s
    ∧ rows (delete_member mid s) = rows s
    ∧ rows (delete_category cid s) = rows s
    ∧ rows (delete_team tid s) = rows s := by
  refine ⟨?_, ?_, ?_, ?_, ?_, ?_, ?_, ?_⟩ <;>
    simp only [rows, update_task, update_member, update_category, update_team,
      delete_task, delete_member, delete_category, delete_team, Prod.mk.injEq,
      true_and, and_true] <;>
    first
      | (rw [List.map_congr_left, List.map_id]
         intro x hx
         simp_all)
      | (rw [List.filter_eq_self.2]
         intro x hx
         simp_all)

/-- Witness for claim C6 at a concrete input: the empty store and
payloads with identifier 0. -/
theorem missing_id_operations_are_noops_witness :
    rows (update_task updTask0 emptyStore) = rows emptyStore :=
  (missing_id_operations_are_noops emptyStore updTask0 updMem0 updCat0
    0 "" 0 0 0 0
    (by simp [emptyStore]) (by simp [emptyStore]) (by simp [emptyStore])
    (by simp [emptyStore]) (by simp [emptyStore]) (by simp [emptyStore])
    (by simp [emptyStore]) (by simp [emptyStore])).1

/-- Claim C10: create_member, create_category and create_task succeed and
insert a row even when the supplied team_id matches no team (foreign keys
are not enforced on insert), and the orphan row is returned by the
corresponding list query. -/
theorem create_unchecked_team_reference (s : Store)
    (dm : CreateMember) (dc : CreateCategory) (dk : CreateTask)
    (hm : ∀ t ∈ s.teams, t.id ≠ dm.team_id)
    (hc : ∀ t ∈ s.teams, t.id ≠ dc.team_id)
    (hk : ∀ t ∈ s.teams, t.id ≠ dk.team_id) :
    (create_member dm s).1 ∈ get_members dm.team_id (create_member dm s).2
    ∧ (create_category dc s).1 ∈ get_categories dc.team_id (create_category dc s).2
    ∧ (create_task dk s).1 ∈ get_tasks dk.team_id (create_task dk s).2 := by
  refine ⟨?_, ?_, ?_⟩ <;>
    simp [get_members, get_categories, get_tasks, create_member, create_category,
      create_task, List.mem_filter]

/-- Witness for claim C10 at a concrete input: the empty store (so no
team exists at all) and payloads referencing team 7. -/
theorem create_unchecked_team_reference_witness :
    (create_member newMem7 emptyStore).1
      ∈ get_members 7 (create_member newMem7 emptyStore).2 :=
  (create_unchecked_team_reference emptyStore newMem7 newCat7 newTask7
    (by simp [emptyStore]) (by simp [emptyStore]) (by simp [emptyStore])).1

/-- Claim C1: deleting a team removes the team row but, because the
connection never enables SQLite foreign-key enforcement, the declared
ON DELETE CASCADE clauses do not fire: the team's members, categories and
tasks all survive the deletion, contradicting the cascade the schema
declares and the specification states. -/
theorem delete_team_does_not_cascade :
    get_teams (delete_team 0 storeA) = []
    ∧ get_members 0 (delete_team 0 storeA) ≠ []
    ∧ get_categories 0 (delete_team 0 storeA) ≠ []
    ∧ get_tasks 0 (delete_team 0 storeA) ≠ [] := by decide

/-- Claim C3: deleting a member referenced by a task leaves the task in
place but, because foreign-key enforcement is never enabled, the declared
ON DELETE SET NULL does not fire: the task still carries the deleted
member's id instead of an absent member_id. -/
theorem delete_member_leaves_dangling_reference :
    get_members 0 (delete_member 1 storeA) = []
    ∧ (get_tasks 0 (delete_member 1 storeA)).map Task.member_id = [some 1] := by decide

theorem sqlMax_append_one (cs : List Category) (c : Category) :
    sqlMaxOrderIndex (cs ++ [c]) =
      some (match sqlMaxOrderIndex cs with
            | none => c.order_index
            | some m => max m c.order_index) := by
  induction cs with
  | nil => rfl
  | cons a cs ih =>
    cases h : sqlMaxOrderIndex cs with
    | none => simp [sqlMaxOrderIndex, ih, h]
    | some m => simp [sqlMaxOrderIndex, ih, h, max_assoc]

theorem le_sqlMax (cs : List Category) (m : Int) (h : sqlMaxOrderIndex cs = some m) :
    ∀ c ∈ cs, c.order_index ≤ m := by
  induction cs generalizing m with
  | nil => simp [sqlMaxOrderIndex] at h
  | cons a cs ih =>
    simp only [sqlMaxOrderIndex] at h
    cases hq : sqlMaxOrderIndex cs with
    | none =>
      rw [hq] at h
      have hm : a.order_index = m := by simpa using h
      intro c hc
      rcases List.mem_cons.1 hc with rfl | hc2
      · exact hm.le
      · cases cs with
        | nil => cases hc2
        | cons b bs => simp [sqlMaxOrderIndex] at hq
    | some m₀ =>
      rw [hq] at h
      have hm : max a.order_index m₀ = m := by simpa using h
      intro c hc
      rcases List.mem_cons.1 hc with rfl | hc2
      · exact hm ▸ le_max_left _ _
      · exact le_trans (ih m₀ hq c hc2) (hm ▸ le_max_right _ _)

theorem sqlMax_mem (cs : List Category) (m : Int) (h : sqlMaxOrderIndex cs = some m) :
    ∃ c ∈ cs, c.order_index = m := by
  induction cs generalizing m with
  | nil => simp [sqlMaxOrderIndex] at h
  | cons a cs ih =>
    simp only [sqlMaxOrderIndex] at h
    cases hq : sqlMaxOrderIndex cs with
    | none =>
      rw [hq] at h
      exact ⟨a, List.mem_cons_self a cs, by simpa using h⟩
    | some m₀ =>
      rw [hq] at h
      have hm : max a.order_index m₀ = m := by simpa using h
      rcases le_total a.order_index m₀ with hle | hle
      · obtain ⟨c, hc, hcm⟩ := ih m₀ hq
        exact ⟨c, List.mem_cons_of_mem a hc, by rw [hcm]; rw [max_eq_right hle] at hm; exact hm⟩
      · exact ⟨a, List.mem_cons_self a cs, by rw [max_eq_left hle] at hm; exact hm⟩

theorem create_member_eq (d : CreateMember) (s : Store) :
    create_member d s =
      (mkMemRow s.clock d,
       { s with members := s.members ++ [mkMemRow s.clock d], clock := s.clock + 1 }) := rfl

theorem create_task_eq (d : CreateTask) (s : Store) :
    create_task d s =
      (mkTaskRow s.clock d,
       { s with tasks := s.tasks ++ [mkTaskRow s.clock d], clock := s.clock + 1 }) := rfl

theorem create_category_eq (d : CreateCategory) (s : Store) (k : Int)
    (h : (sqlMaxOrderIndex (s.categories.filter (fun c => c.team_id = d.team_id))).getD (-1) + 1 = k) :
    create_category d s =
      (mkCatRow s.clock d k,
       { s with categories := s.categories ++ [mkCatRow s.clock d k], clock := s.clock + 1 }) := by
  subst h
  rfl

theorem membersPhase_spec (tid : Nat) :
    ∀ (js : List Json) (s : Store),
      (membersPhase tid js s).teams = s.teams
      ∧ (membersPhase tid js s).categories = s.categories
      ∧ (membersPhase tid js s).tasks = s.tasks
      ∧ (membersPhase tid js s).members = s.members ++ mkMems tid js s.clock
      ∧ (membersPhase tid js s).clock = s.clock + js.length := by
  intro js
  induction js with
  | nil => intro s; simp [membersPhase, mkMems]
  | cons j js ih =>
    intro s
    have h := ih { s with members := s.members ++ [mkMemRow s.clock (memberFromJson tid j)],
                          clock := s.clock + 1 }
    simp only [membersPhase, create_member_eq] at h ⊢
    refine ⟨h.1, h.2.1, h.2.2.1, ?_, ?_⟩
    · rw [h.2.2.2.1]
      simp [mkMems]
    · rw [h.2.2.2.2]
      simp
      omega

theorem tasksPhase_spec (tid : Nat) :
    ∀ (js : List Json) (s : Store),
      (tasksPhase tid js s).teams = s.teams
      ∧ (tasksPhase tid js s).categories = s.categories
      ∧ (tasksPhase tid js s).members = s.members
      ∧ (tasksPhase tid js s).tasks = s.tasks ++ mkTasks tid js s.clock
      ∧ (tasksPhase tid js s).clock = s.clock + js.length := by
  intro js
  induction js with
  | nil => intro s; simp [tasksPhase, mkTasks]
  | cons j js ih =>
    intro s
    have h := ih { s with tasks := s.tasks ++ [mkTaskRow s.clock (taskFromJson tid j)],
                          clock := s.clock + 1 }
    simp only [tasksPhase, create_task_eq] at h ⊢
    refine ⟨h.1, h.2.1, h.2.2.1, ?_, ?_⟩
    · rw [h.2.2.2.1]
      simp [mkTasks]
    · rw [h.2.2.2.2]
      simp
      omega

theorem createCategoryList_spec (tid : Nat) :
    ∀ (ps : List (String × String)) (s : Store) (k : Int),
      (sqlMaxOrderIndex (s.categories.filter (fun c => c.team_id = tid))).getD (-1) + 1 = k →
      (createCategoryList tid ps s).1 = mkCats tid ps s.clock k
      ∧ (createCategoryList tid ps s).2.teams = s.teams
      ∧ (createCategoryList tid ps s).2.members = s.members
      ∧ (createCategoryList tid ps s).2.tasks = s.tasks
      ∧ (createCategoryList tid ps s).2.categories = s.categories ++ mkCats tid ps s.clock k
      ∧ (createCategoryList tid ps s).2.clock = s.clock + ps.length := by
  intro ps
  induction ps with
  | nil => intro s k hk; simp [createCategoryList, mkCats]
  | cons p ps ih =>
    intro s k hk
    have hrow := create_category_eq { team_id := tid, name := p.1, color := p.2 } s k hk
    set row := mkCatRow s.clock { team_id := tid, name := p.1, color := p.2 } k with hrowdef
    have hstep : (sqlMaxOrderIndex
        (({ s with categories := s.categories ++ [row], clock := s.clock + 1 } : Store).categories.filter
          (fun c => c.team_id = tid))).getD (-1) + 1 = k + 1 := by
      have hrt : (row.team_id = tid) := rfl
      simp only [List.filter_append]
      have : List.filter (fun c => decide (c.team_id = tid)) [row] = [row] := by
        simp [hrt]
      rw [this, sqlMax_append_one]
      have hoi : row.order_index = k := rfl
      cases hq : sqlMaxOrderIndex (s.categories.filter (fun c => c.team_id = tid)) with
      | none =>
        rw [hq] at hk
        simp only [Option.getD] at hk
        simp [hoi]
      | some m =>
        rw [hq] at hk
        simp only [Option.getD] at hk
        have : max m row.order_index = k := by rw [hoi]; omega
        simp [this]
    have h := ih { s with categories := s.categories ++ [row], clock := s.clock + 1 } (k + 1) hstep
    simp only [createCategoryList, hrow] at h ⊢
    refine ⟨?_, h.2.1, h.2.2.1, h.2.2.2.1, ?_, ?_⟩
    · rw [h.1]
      simp [mkCats, hrowdef]
    · rw [h.2.2.2.2.1]
      simp [mkCats, hrowdef]
    · rw [h.2.2.2.2.2]
      simp
      omega

theorem mkMems_team (tid : Nat) :
    ∀ (js : List Json) (c : Nat), ∀ m ∈ mkMems tid js c, m.team_id = tid := by
  intro js
  induction js with
  | nil => simp [mkMems]
  | cons j js ih =>
    intro c m hm
    rcases List.mem_cons.1 hm with rfl | hm2
    · rfl
    · exact ih (c + 1) m hm2

theorem mkMems_created_ge (tid : Nat) :
    ∀ (js : List Json) (c : Nat), ∀ m ∈ mkMems tid js c, c ≤ m.created_at := by
  intro js
  induction js with
  | nil => simp [mkMems]
  | cons j js ih =>
    intro c m hm
    rcases List.mem_cons.1 hm with rfl | hm2
    · exact le_refl _
    · exact le_trans (Nat.le_succ c) (ih (c + 1) m hm2)

theorem mkMems_sorted (tid : Nat) :
    ∀ (js : List Json) (c : Nat), List.Sorted memberLe (mkMems tid js c) := by
  intro js
  induction js with
  | nil => intro c; exact List.sorted_nil
  | cons j js ih =>
    intro c
    refine List.sorted_cons.2 ⟨?_, ih (c + 1)⟩
    intro b hb
    exact le_trans (Nat.le_succ c) (mkMems_created_ge tid js (c + 1) b hb)

theorem mkMems_map_fields (tid : Nat) :
    ∀ (js : List Json) (c : Nat),
      (mkMems tid js c).map (fun m => (m.name, m.role, m.color))
        = js.map (fun j => (getStr j "name" "", getStr j "role" "", getStr j "color" "#4A90D9")) := by
  intro js
  induction js with
  | nil => intro c; rfl
  | cons j js ih =>
    intro c
    simp only [mkMems, List.map_cons, ih]
    rfl

theorem mkCats_team (tid : Nat) :
    ∀ (ps : List (String × String)) (c : Nat) (k : Int), ∀ x ∈ mkCats tid ps c k, x.team_id = tid := by
  intro ps
  induction ps with
  | nil => simp [mkCats]
  | cons p ps ih =>
    intro c k x hx
    rcases List.mem_cons.1 hx with rfl | hx2
    · rfl
    · exact ih (c + 1) (k + 1) x hx2

theorem mkCats_order_ge (tid : Nat) :
    ∀ (ps : List (String × String)) (c : Nat) (k : Int), ∀ x ∈ mkCats tid ps c k, k ≤ x.order_index := by
  intro ps
  induction ps with
  | nil => simp [mkCats]
  | cons p ps ih =>
    intro c k x hx
    rcases List.mem_cons.1 hx with rfl | hx2
    · exact le_refl _
    · exact le_trans (by omega) (ih (c + 1) (k + 1) x hx2)

theorem mkCats_sorted (tid : Nat) :
    ∀ (ps : List (String × String)) (c : Nat) (k : Int), List.Sorted catLe (mkCats tid ps c k) := by
  intro ps
  induction ps with
  | nil => intro c k; exact List.sorted_nil
  | cons p ps ih =>
    intro c k
    refine List.sorted_cons.2 ⟨?_, ih (c + 1) (k + 1)⟩
    intro b hb
    have hge := mkCats_order_ge tid ps (c + 1) (k + 1) b hb
    have h0 : (mkCatRow c { team_id := tid, name := p.1, color := p.2 } k).order_index = k := rfl
    show (mkCatRow c { team_id := tid, name := p.1, color := p.2 } k).order_index ≤ b.order_index
    omega

theorem mkCats_map_pair (tid : Nat) :
    ∀ (ps : List (String × String)) (c : Nat) (k : Int),
      (mkCats tid ps c k).map (fun x => (x.name, x.color)) = ps := by
  intro ps
  induction ps with
  | nil => intro c k; rfl
  | cons p ps ih =>
    intro c k
    simp only [mkCats, List.map_cons, ih]
    rfl

theorem mkCats_map_order (tid : Nat) :
    ∀ (ps : List (String × String)) (c : Nat) (k : Int),
      (mkCats tid ps c k).map (fun x => x.order_index)
        = (List.range ps.length).map (fun i : Nat => k + (i : Int)) := by
  intro ps
  induction ps with
  | nil => intro c k; rfl
  | cons p ps ih =>
    intro c k
    rw [List.length_cons, List.range_succ_eq_map]
    simp only [mkCats, List.map_cons, List.map_map, ih]
    congr 1
    · simp [mkCatRow]
    · apply List.map_congr_left
      intro i hi
      simp only [Function.comp]
      push_cast
      ring

theorem mkTasks_team (tid : Nat) :
    ∀ (js : List Json) (c : Nat), ∀ k ∈ mkTasks tid js c, k.team_id = tid := by
  intro js
  induction js with
  | nil => simp [mkTasks]
  | cons j js ih =>
    intro c k hk
    rcases List.mem_cons.1 hk with rfl | hk2
    · rfl
    · exact ih (c + 1) k hk2

theorem mkTasks_map_start (tid : Nat) :
    ∀ (js : List Json) (c : Nat),
      (mkTasks tid js c).map (fun k => k.start_date)
        = js.map (fun j => getStr j "start_date" "") := by
  intro js
  induction js with
  | nil => intro c; rfl
  | cons j js ih =>
    intro c
    simp only [mkTasks, List.map_cons, ih]
    rfl

theorem mkTasks_map_core (tid : Nat) :
    ∀ (js : List Json) (c : Nat),
      (mkTasks tid js c).map
          (fun k => (k.title, k.description, k.start_date, k.end_date, k.status, k.member_id, k.category_id))
        = js.map (fun j => (getStr j "title" "", getStr j "description" "",
            getStr j "start_date" "", getStr j "end_date" "",
            getStr j "status" "not_started", (none : Option Nat), (none : Option Nat))) := by
  intro js
  induction js with
  | nil => intro c; rfl
  | cons j js ih =>
    intro c
    simp only [mkTasks, List.map_cons, ih]
    rfl

theorem sorted_taskLe_iff (l : List Task) :
    List.Sorted taskLe l
      ↔ List.Pairwise (fun a b : String => a ≤ b) (l.map (fun k => k.start_date)) := by
  rw [List.pairwise_map]
  exact Iff.rfl

theorem filter_team_cleared {α : Type} (f : α → Nat) (tid : Nat) (l : List α) :
    (l.filter (fun x => ¬ f x = tid)).filter (fun x => f x = tid) = [] := by
  rw [List.filter_filter, List.filter_eq_nil_iff]
  intro a ha
  simp

theorem memberFromJson_toJson (tid : Nat) (m : Member) :
    memberFromJson tid (Member.toJson m)
      = { team_id := tid, name := m.name, role := m.role, color := m.color } := rfl

theorem categoryPair_toJson (c : Category) :
    categoryPair (Category.toJson c) = (c.name, c.color) := rfl

theorem taskFromJson_toJson (tid : Nat) (k : Task) :
    taskFromJson tid (Task.toJson k)
      = ⟨tid, none, none, k.title, k.description, k.start_date, k.end_date, k.status⟩ := rfl

theorem exportDoc_members (tm : Team) (ms cs ks : List Json) (ex : String) :
    ((exportDoc tm ms cs ks ex).getField "members").bind Json.asArr = some ms := rfl

theorem exportDoc_categories (tm : Team) (ms cs ks : List Json) (ex : String) :
    ((exportDoc tm ms cs ks ex).getField "categories").bind Json.asArr = some cs := rfl

theorem exportDoc_tasks (tm : Team) (ms cs ks : List Json) (ex : String) :
    ((exportDoc tm ms cs ks ex).getField "tasks").bind Json.asArr = some ks := rfl

theorem export_data_eq (tid : Nat) (s : Store) (tm : Team)
    (h : s.teams.find? (fun t => t.id = tid) = some tm) :
    export_data tid s
      = .ok (exportDoc tm ((get_members tid s).map Member.toJson)
          ((get_categories tid s).map Category.toJson)
          ((get_tasks tid s).map Task.toJson) (toString s.clock)) := by
  simp [export_data, h]

theorem import_data_some_eq (tid : Nat) (data : Json) (s : Store) (ms cs ks : List Json)
    (hm : (data.getField "members").bind Json.asArr = some ms)
    (hc : (data.getField "categories").bind Json.asArr = some cs)
    (hk : (data.getField "tasks").bind Json.asArr = some ks) :
    import_data tid (some data) s =
      (.ok (), tasksPhase tid ks (categoriesPhase tid cs (membersPhase tid ms (clearTeamData tid s)))) := by
  simp [import_data, hm, hc, hk]

theorem get_members_congr (tid : Nat) (u v : Store) (h : u.members = v.members) :
    get_members tid u = get_members tid v := by
  simp [get_members, h]

theorem get_categories_congr (tid : Nat) (u v : Store) (h : u.categories = v.categories) :
    get_categories tid u = get_categories tid v := by
  simp [get_categories, h]

theorem get_tasks_congr (tid : Nat) (u v : Store) (h : u.tasks = v.tasks) :
    get_tasks tid u = get_tasks tid v := by
  simp [get_tasks, h]

theorem createCategoryList_others (tid : Nat) :
    ∀ (ps : List (String × String)) (s : Store),
      (createCategoryList tid ps s).2.teams = s.teams
      ∧ (createCategoryList tid ps s).2.members = s.members
      ∧ (createCategoryList tid ps s).2.tasks = s.tasks := by
  intro ps
  induction ps with
  | nil => intro s; exact ⟨rfl, rfl, rfl⟩
  | cons p ps ih =>
    intro s
    exact ⟨(ih _).1, (ih _).2.1, (ih _).2.2⟩

theorem clearTeamData_cats_filter (tid : Nat) (s : Store) :
    (clearTeamData tid s).categories.filter (fun c => c.team_id = tid) = [] :=
  filter_team_cleared (fun c : Category => c.team_id) tid s.categories

theorem clearTeamData_mems_filter (tid : Nat) (s : Store) :
    (clearTeamData tid s).members.filter (fun m => m.team_id = tid) = [] :=
  filter_team_cleared (fun m : Member => m.team_id) tid s.members

theorem clearTeamData_tasks_filter (tid : Nat) (s : Store) :
    (clearTeamData tid s).tasks.filter (fun k => k.team_id = tid) = [] :=
  filter_team_cleared (fun k : Task => k.team_id) tid s.tasks

theorem get_categories_categoriesPhase (tid : Nat) (cs : List Json) (u : Store)
    (hclear : u.categories.filter (fun c => c.team_id = tid) = []) :
    get_categories tid (categoriesPhase tid cs u) = mkCats tid (cs.map categoryPair) u.clock 0 := by
  have h0 : (sqlMaxOrderIndex (u.categories.filter (fun c => c.team_id = tid))).getD (-1) + 1 = 0 := by
    rw [hclear]
    rfl
  have hs := createCategoryList_spec tid (cs.map categoryPair) u 0 h0
  simp only [get_categories, categoriesPhase]
  rw [hs.2.2.2.2.1, List.filter_append, hclear, List.nil_append,
    List.filter_eq_self.2 (fun x hx => by simp [mkCats_team tid _ _ _ x hx])]
  exact (mkCats_sorted tid _ _ _).insertionSort_eq

/-- Claim C4: create_category assigns order_index = (max order_index of
the team's categories) + 1, and 0 when the team has none; and
init_default_categories on a team with no categories creates exactly ten
categories with order_index 0 through 9 in the documented fixed
name/color order (Proposal/#FF6B6B first, QA/#85C1E9 last), which the
subsequent listing returns in that order. -/
theorem category_order_index_assignment (s : Store) (d : CreateCategory) (tid : Nat)
    (hempty : s.categories.filter (fun c => c.team_id = tid) = []) :
    (s.categories.filter (fun c => c.team_id = d.team_id) = [] →
        (create_category d s).1.order_index = 0)
    ∧ (∀ m : Int,
        sqlMaxOrderIndex (s.categories.filter (fun c => c.team_id = d.team_id)) = some m →
        (create_category d s).1.order_index = m + 1
        ∧ (∀ c ∈ s.categories.filter (fun c => c.team_id = d.team_id), c.order_index ≤ m)
        ∧ (∃ c ∈ s.categories.filter (fun c => c.team_id = d.team_id), c.order_index = m))
    ∧ (init_default_categories tid s).1.map (fun c => (c.name, c.color)) = defaultCategories
    ∧ (init_default_categories tid s).1.map (fun c => c.order_index)
        = [0, 1, 2, 3, 4, 5, 6, 7, 8, 9]
    ∧ (init_default_categories tid s).1.length = 10
    ∧ get_categories tid (init_default_categories tid s).2 = (init_default_categories tid s).1 := by
  have h0 : (sqlMaxOrderIndex (s.categories.filter (fun c => c.team_id = tid))).getD (-1) + 1 = 0 := by
    rw [hempty]
    rfl
  have hs := createCategoryList_spec tid defaultCategories s 0 h0
  have hlist : (init_default_categories tid s).1 = mkCats tid defaultCategories s.clock 0 := hs.1
  refine ⟨?_, ?_, ?_, ?_, ?_, ?_⟩
  · intro h
    simp [create_category, h, sqlMaxOrderIndex]
  · intro m hm
    exact ⟨by simp [create_category, hm], le_sqlMax _ m hm, sqlMax_mem _ m hm⟩
  · rw [hlist, mkCats_map_pair]
  · rw [hlist, mkCats_map_order]
    decide
  · rw [hlist]
    rfl
  · show get_categories tid (createCategoryList tid defaultCategories s).2 = _
    simp only [get_categories]
    rw [hs.2.2.2.2.1, List.filter_append, hempty, List.nil_append,
      List.filter_eq_self.2 (fun x hx => by simp [mkCats_team tid _ _ _ x hx]),
      (mkCats_sorted tid _ _ _).insertionSort_eq]
    exact hlist.symm

/-- Witness for claim C4 at a concrete input: the empty store, the
payload for team 7, and team 0 (which has no categories). -/
theorem category_order_index_assignment_witness :
    (init_default_categories 0 emptyStore).1.map (fun c => c.order_index)
      = [0, 1, 2, 3, 4, 5, 6, 7, 8, 9] :=
  (category_order_index_assignment emptyStore newCat7 0 rfl).2.2.2.1

/-- Claim C8: a document that parses but offers none of the three arrays
(members, categories, tasks) makes import_data succeed after the delete
phase alone: the team's tasks, categories and members are deleted,
nothing is created, other teams' rows are untouched, and the team's three
listings come back empty. -/
theorem import_parsed_non_object_empties_team (tid : Nat) (j : Json) (s : Store)
    (hm : (j.getField "members").bind Json.asArr = none)
    (hc : (j.getField "categories").bind Json.asArr = none)
    (hk : (j.getField "tasks").bind Json.asArr = none) :
    import_data tid (some j) s = (Except.ok (), clearTeamData tid s)
    ∧ get_members tid (clearTeamData tid s) = []
    ∧ get_categories tid (clearTeamData tid s) = []
    ∧ get_tasks tid (clearTeamData tid s) = [] := by
  refine ⟨by simp [import_data, hm, hc, hk], ?_, ?_, ?_⟩
  · simp only [get_members]
    rw [show (clearTeamData tid s).members = s.members.filter (fun m => ¬ m.team_id = tid) from rfl,
      filter_team_cleared (fun m : Member => m.team_id)]
    rfl
  · simp only [get_categories]
    rw [show (clearTeamData tid s).categories = s.categories.filter (fun c => ¬ c.team_id = tid) from rfl,
      filter_team_cleared (fun c : Category => c.team_id)]
    rfl
  · simp only [get_tasks]
    rw [show (clearTeamData tid s).tasks = s.tasks.filter (fun k => ¬ k.team_id = tid) from rfl,
      filter_team_cleared (fun k : Task => k.team_id)]
    rfl

/-- Witness for claim C8 at a concrete input: the JSON document null and
the populated store with team 0. -/
theorem import_parsed_non_object_empties_team_witness :
    import_data 0 (some Json.null) storeA = (Except.ok (), clearTeamData 0 storeA) :=
  (import_parsed_non_object_empties_team 0 Json.null storeA rfl rfl rfl).1

/-- Claim C9: import_data ignores the order_index values carried by the
document's categories array: the re-created categories receive
order_index 0, 1, ..., n-1 in the array's element order (their
name/color still coming from the array elements, in order), whatever the
document's order_index values are. -/
theorem import_reassigns_category_order (tid : Nat) (data : Json) (s : Store) (cs : List Json)
    (hc : (data.getField "categories").bind Json.asArr = some cs) :
    (import_data tid (some data) s).1 = Except.ok ()
    ∧ (get_categories tid (import_data tid (some data) s).2).map (fun c => (c.name, c.color))
        = cs.map categoryPair
    ∧ (get_categories tid (import_data tid (some data) s).2).map (fun c => c.order_index)
        = (List.range cs.length).map (fun i : Nat => (i : Int)) := by
  have key : (import_data tid (some data) s).1 = Except.ok ()
      ∧ ∃ c₀ : Nat, get_categories tid (import_data tid (some data) s).2
          = mkCats tid (cs.map categoryPair) c₀ 0 := by
    cases hmem : (data.getField "members").bind Json.asArr with
    | none =>
      cases htask : (data.getField "tasks").bind Json.asArr with
      | none =>
        have h2 : (import_data tid (some data) s).2
            = categoriesPhase tid cs (clearTeamData tid s) := by
          simp [import_data, hmem, hc, htask]
        refine ⟨by simp [import_data, hmem, hc, htask], (clearTeamData tid s).clock, ?_⟩
        rw [h2]
        exact get_categories_categoriesPhase tid cs _ (clearTeamData_cats_filter tid s)
      | some ks =>
        have h2 : (import_data tid (some data) s).2
            = tasksPhase tid ks (categoriesPhase tid cs (clearTeamData tid s)) := by
          simp [import_data, hmem, hc, htask]
        refine ⟨by simp [import_data, hmem, hc, htask], (clearTeamData tid s).clock, ?_⟩
        rw [h2, get_categories_congr tid _ (categoriesPhase tid cs (clearTeamData tid s))
          (tasksPhase_spec tid ks _).2.1]
        exact get_categories_categoriesPhase tid cs _ (clearTeamData_cats_filter tid s)
    | some ms =>
      have hclear2 : (membersPhase tid ms (clearTeamData tid s)).categories.filter
          (fun c => c.team_id = tid) = [] := by
        rw [(membersPhase_spec tid ms _).2.1]
        exact clearTeamData_cats_filter tid s
      cases htask : (data.getField "tasks").bind Json.asArr with
      | none =>
        have h2 : (import_data tid (some data) s).2
            = categoriesPhase tid cs (membersPhase tid ms (clearTeamData tid s)) := by
          simp [import_data, hmem, hc, htask]
        refine ⟨by simp [import_data, hmem, hc, htask],
          (membersPhase tid ms (clearTeamData tid s)).clock, ?_⟩
        rw [h2]
        exact get_categories_categoriesPhase tid cs _ hclear2
      | some ks =>
        have h2 : (import_data tid (some data) s).2
            = tasksPhase tid ks
                (categoriesPhase tid cs (membersPhase tid ms (clearTeamData tid s))) := by
          simp [import_data, hmem, hc, htask]
        refine ⟨by simp [import_data, hmem, hc, htask],
          (membersPhase tid ms (clearTeamData tid s)).clock, ?_⟩
        rw [h2, get_categories_congr tid _
          (categoriesPhase tid cs (membersPhase tid ms (clearTeamData tid s)))
          (tasksPhase_spec tid ks _).2.1]
        exact get_categories_categoriesPhase tid cs _ hclear2
  obtain ⟨hok, c₀, hcats⟩ := key
  refine ⟨hok, ?_, ?_⟩
  · rw [hcats, mkCats_map_pair]
  · rw [hcats, mkCats_map_order]
    simp [List.length_map]

/-- A category element carrying order_index 42, for exercising claim C9. -/
def catDoc1 : Json :=
  .obj [("name", .str "A"), ("color", .str "#111111"), ("order_index", .num 42)]

/-- A category element carrying order_index 7 and no color. -/
def catDoc2 : Json :=
  .obj [("name", .str "B"), ("order_index", .num 7)]

/-- An import document whose categories carry order_index 42 and 7. -/
def docC9 : Json := .obj [("categories", .arr [catDoc1, catDoc2])]

/-- Witness for claim C9 at a concrete input: importing a document whose
two categories carry order_index 42 and 7 yields order_index 0 and 1. -/
theorem import_reassigns_category_order_witness :
    (get_categories 0 (import_data 0 (some docC9) storeA).2).map (fun c => c.order_index)
      = (List.range ([catDoc1, catDoc2] : List Json).length).map (fun i : Nat => (i : Int)) :=
  (import_reassigns_category_order 0 docC9 storeA [catDoc1, catDoc2] rfl).2.2

/-- Claim C2 (amended): for every store containing team t, exporting t
and importing the document back into t succeeds and reproduces the
members (name, role, color), categories (name, color) and tasks (title,
description, start_date, end_date, status) field-for-field and in
listing order, with identifiers and timestamps freshly regenerated,
every task's member_id and category_id absent after the round trip, and
the categories' order_index values reassigned consecutively 0..n-1
following the export listing order. -/
theorem export_import_roundtrip (tid : Nat) (s : Store) (tm : Team)
    (h : s.teams.find? (fun t => t.id = tid) = some tm) :
    (∃ doc, export_data tid s = Except.ok doc
        ∧ import_data tid (some doc) s = (Except.ok (), roundtripStore tid s))
    ∧ (get_members tid (roundtripStore tid s)).map (fun m => (m.name, m.role, m.color))
        = (get_members tid s).map (fun m => (m.name, m.role, m.color))
    ∧ (get_categories tid (roundtripStore tid s)).map (fun c => (c.name, c.color))
        = (get_categories tid s).map (fun c => (c.name, c.color))
    ∧ (get_categories tid (roundtripStore tid s)).map (fun c => c.order_index)
        = (List.range (get_categories tid s).length).map (fun i : Nat => (i : Int))
    ∧ (get_tasks tid (roundtripStore tid s)).map
          (fun k => (k.title, k.description, k.start_date, k.end_date, k.status,
            k.member_id, k.category_id))
        = (get_tasks tid s).map
          (fun k => (k.title, k.description, k.start_date, k.end_date, k.status,
            (none : Option Nat), (none : Option Nat))) := by
  have hex := export_data_eq tid s tm h
  set ms := (get_members tid s).map Member.toJson with hms
  set cs := (get_categories tid s).map Category.toJson with hcs
  set ks := (get_tasks tid s).map Task.toJson with hks
  set doc := exportDoc tm ms cs ks (toString s.clock) with hdoc
  have himp := import_data_some_eq tid doc s ms cs ks
    (exportDoc_members tm ms cs ks _) (exportDoc_categories tm ms cs ks _)
    (exportDoc_tasks tm ms cs ks _)
  set u₁ := clearTeamData tid s with hu₁
  set u₂ := membersPhase tid ms u₁ with hu₂
  set u₃ := categoriesPhase tid cs u₂ with hu₃
  set u₄ := tasksPhase tid ks u₃ with hu₄
  have hrt : roundtripStore tid s = u₄ := by
    rw [roundtripStore, hex]
    rw [show ((Except.ok doc : Except String Json)) = Except.ok doc from rfl]
    simp only []
    rw [himp]
  have hmp := membersPhase_spec tid ms u₁
  have htp := tasksPhase_spec tid ks u₃
  have hco := createCategoryList_others tid (cs.map categoryPair) u₂
  have hmem4 : u₄.members = u₁.members ++ mkMems tid ms u₁.clock := by
    rw [htp.2.2.1, show u₃.members = u₂.members from hco.2.1, hmp.2.2.2.1]
  have hgm : get_members tid u₄ = mkMems tid ms u₁.clock := by
    simp only [get_members]
    rw [hmem4, List.filter_append,
      show u₁.members.filter (fun m => m.team_id = tid) = [] from
        clearTeamData_mems_filter tid s,
      List.nil_append,
      List.filter_eq_self.2 (fun x hx => by simp [mkMems_team tid _ _ x hx]),
      (mkMems_sorted tid ms _).insertionSort_eq]
  have hclear2 : u₂.categories.filter (fun c => c.team_id = tid) = [] := by
    rw [hmp.2.1]
    exact clearTeamData_cats_filter tid s
  have hgc : get_categories tid u₄ = mkCats tid (cs.map categoryPair) u₂.clock 0 := by
    rw [get_categories_congr tid u₄ u₃ htp.2.1]
    exact get_categories_categoriesPhase tid cs u₂ hclear2
  have htasks4 : u₄.tasks = u₁.tasks ++ mkTasks tid ks u₃.clock := by
    rw [htp.2.2.2.1, show u₃.tasks = u₂.tasks from hco.2.2, hmp.2.2.1]
  have hsortks : List.Sorted taskLe (mkTasks tid ks u₃.clock) := by
    rw [sorted_taskLe_iff, mkTasks_map_start, hks, List.map_map]
    rw [show ((fun j => getStr j "start_date" "") ∘ Task.toJson)
        = fun k : Task => k.start_date from rfl]
    exact (sorted_taskLe_iff (get_tasks tid s)).1 (List.sorted_insertionSort taskLe _)
  have hgt : get_tasks tid u₄ = mkTasks tid ks u₃.clock := by
    simp only [get_tasks]
    rw [htasks4, List.filter_append,
      show u₁.tasks.filter (fun k => k.team_id = tid) = [] from
        clearTeamData_tasks_filter tid s,
      List.nil_append,
      List.filter_eq_self.2 (fun x hx => by simp [mkTasks_team tid _ _ x hx]),
      hsortks.insertionSort_eq]
  refine ⟨⟨doc, hex, by rw [himp, hrt]⟩, ?_, ?_, ?_, ?_⟩
  · rw [hrt, hgm, mkMems_map_fields, hms, List.map_map]
    apply List.map_congr_left
    intro m hmm
    rfl
  · rw [hrt, hgc, mkCats_map_pair, hcs, List.map_map]
    apply List.map_congr_left
    intro c hcc
    rfl
  · rw [hrt, hgc, mkCats_map_order, List.length_map, hcs, List.length_map]
    simp
  · rw [hrt, hgt, mkTasks_map_core, hks, List.map_map]
    apply List.map_congr_left
    intro k hkk
    rfl

/-- Witness for claim C2 at a concrete input: the populated store with
team 0 whose task references member 1 and category 2; after the round
trip the task's fields survive with member_id and category_id absent. -/
theorem export_import_roundtrip_witness :
    (get_tasks 0 (roundtripStore 0 storeA)).map
        (fun k => (k.title, k.description, k.start_date, k.end_date, k.status,
          k.member_id, k.category_id))
      = (get_tasks 0 storeA).map
        (fun k => (k.title, k.description, k.start_date, k.end_date, k.status,
          (none : Option Nat), (none : Option Nat))) :=
  (export_import_roundtrip 0 storeA { id := 0, name := "Team", created_at := 0 }
    rfl).2.2.2.2

/-- Counterexample to claim C2 as stated: in storeB the only category of
team 0 has order_index 3, which is neither an identifier nor a
timestamp, yet after export-then-import the re-created category carries
order_index 0 — the round trip is not field-for-field up to identifiers
and timestamps. -/
theorem export_import_roundtrip_counterexample :
    (get_categories 0 storeB).map (fun c => c.order_index) = [3]
    ∧ (get_categories 0 (roundtripStore 0 storeB)).map (fun c => c.order_index) = [0] := by
  decide

end GDS
